import Mathlib

/-!
Shallow embedding of the agent orchestration subsystem of `saltbitter`
(`.agents/worker.py` and `.agents/coordinator.py`).

The shared JSON documents (task queue and agent registry) are modelled as
Lean structures; timestamps are `Nat`; the floating-point priority scores
(all small multiples of 0.5, hence exact in the source) are modelled as `ℚ`.
Each queue/registry operation is translated from the corresponding Python
function, preserving its scan order, truthiness checks and update shape.
-/

namespace SaltBitter

/-- One task, as stored in `.agents/tasks/queue.json`.  Fields mirror the
keys the Python code reads or writes (`worker.py`, `coordinator.py`). -/
structure Task where
  id : String
  title : String
  priority : Int
  estimated_complexity : String
  dependencies : List String
  required_capabilities : List String
  claimed_by : Option String
  claimed_at : Option Nat
  completed_by : Option String
  completed_at : Option Nat
deriving DecidableEq, Repr

/-- The `metadata` object of the queue document (`queue.json`). -/
structure QueueMeta where
  last_updated : Nat
  total_tasks_created : Nat
  total_tasks_completed : Nat
deriving DecidableEq, Repr

/-- The queue document: four task buckets plus metadata. -/
structure Queue where
  pending : List Task
  in_progress : List Task
  completed : List Task
  blocked : List Task
  metadata : QueueMeta
deriving DecidableEq, Repr

/-- One agent record in `.agents/registry.json`. -/
structure AgentRecord where
  id : String
  kind : String
  status : String
  current_task_id : Option String
  branch : Option String
  started_at : Nat
  last_heartbeat : Nat
  capabilities : List String
  container_id : Option String
deriving DecidableEq, Repr

/-- The `metadata` object of the registry document. -/
structure RegistryMeta where
  active_count : Nat
  total_spawned : Nat
  last_updated : Nat
deriving DecidableEq, Repr

/-- The registry document: agent records plus metadata. -/
structure Registry where
  agents : List AgentRecord
  metadata : RegistryMeta
deriving DecidableEq, Repr

/-- Number of tasks in a bucket carrying a given id. -/
def countId (l : List Task) (tid : String) : Nat :=
  (l.filter (fun t => t.id = tid)).length

/-- Extract the first task with id `tid` from a bucket, applying `upd` to it.
This mirrors the `for i, t in enumerate(...): if t["id"] == ...: pop(i)`
loops of `claim_task` and `complete_task` in `worker.py`. -/
def extractFirst (tid : String) (upd : Task → Task) : List Task → Option (List Task × Task)
  | [] => none
  | t :: ts =>
    if t.id = tid then some (ts, upd t)
    else (extractFirst tid upd ts).map (fun p => (t :: p.1, p.2))

/-- The queue mutation performed by `BaseAgent.claim_task` (`worker.py`
lines 195-253): move the task with id `tid` from `pending` to `in_progress`,
stamping `claimed_by`/`claimed_at`; return `false` (claim lost) when the
task is no longer in `pending`, leaving the queue untouched. -/
def claimStep (q : Queue) (tid agent : String) (now : Nat) : Queue × Bool :=
  match extractFirst tid
      (fun t => { t with claimed_by := some agent, claimed_at := some now })
      q.pending with
  | none => (q, false)
  | some (rest, ct) =>
    ({ q with
        pending := rest
        in_progress := q.in_progress ++ [ct]
        metadata := { q.metadata with last_updated := now } }, true)

/-- The queue mutation performed by `BaseAgent.complete_task` (`worker.py`
lines 335-383): move the task from `in_progress` to `completed` when found;
in every case increment `total_tasks_completed` and refresh `last_updated`. -/
def completeTask (q : Queue) (tid agent : String) (now : Nat) : Queue :=
  match extractFirst tid
      (fun t => { t with completed_by := some agent, completed_at := some now })
      q.in_progress with
  | none =>
    { q with
        metadata := { q.metadata with
          last_updated := now
          total_tasks_completed := q.metadata.total_tasks_completed + 1 } }
  | some (rest, ct) =>
    { q with
        in_progress := rest
        completed := q.completed ++ [ct]
        metadata := { q.metadata with
          last_updated := now
          total_tasks_completed := q.metadata.total_tasks_completed + 1 } }

/-- `task.get("claimed_by") in failed_agents` from
`Coordinator.release_failed_tasks`; a missing/none `claimed_by` never
matches a (string) agent id. -/
def claimedByFailed (failed : List String) (t : Task) : Bool :=
  match t.claimed_by with
  | some a => failed.contains a
  | none => false

/-- `Coordinator.release_failed_tasks` (`coordinator.py` lines 121-143):
append every `in_progress` task claimed by a failed agent to `pending`
(unchanged, fields included) and remove it from `in_progress`; the queue
file is rewritten (refreshing `last_updated`) only when at least one task
was released. -/
def releaseFailedTasks (q : Queue) (failed : List String) (now : Nat) : Queue :=
  if failed.isEmpty then q
  else
    let moved := q.in_progress.filter (claimedByFailed failed)
    let remaining := q.in_progress.filter (fun t => !(claimedByFailed failed t))
    if 0 < moved.length then
      { q with
          pending := q.pending ++ moved
          in_progress := remaining
          metadata := { q.metadata with last_updated := now } }
    else q

/-- The per-agent body of `Coordinator.check_heartbeats` (`coordinator.py`
lines 102-119): agents with status `stopped` or `idle` are skipped; any
other agent whose heartbeat is older than the timeout is marked
`timed_out` and reported as failed. -/
def checkAgent (now timeout : Nat) (a : AgentRecord) : AgentRecord × Option String :=
  if a.status = "stopped" ∨ a.status = "idle" then (a, none)
  else if timeout < now - a.last_heartbeat then
    ({ a with status := "timed_out" }, some a.id)
  else (a, none)

/-- `Coordinator.check_heartbeats` over the whole registry: returns the
updated agent list (in order) and the ids of the agents flagged this
sweep. -/
def checkHeartbeats (agents : List AgentRecord) (now timeout : Nat) :
    List AgentRecord × List String :=
  match agents with
  | [] => ([], [])
  | a :: as =>
    let r := checkAgent now timeout a
    let rest := checkHeartbeats as now timeout
    (r.1 :: rest.1,
      match r.2 with
      | some i => i :: rest.2
      | none => rest.2)

/-- The in-place update of the `for agent in registry` loop of
`BaseAgent.register`: the first record with the given id gets
`status = "idle"` and a fresh heartbeat; everything else is untouched. -/
def registerUpdate (aid : String) (now : Nat) : List AgentRecord → List AgentRecord
  | [] => []
  | a :: as =>
    if a.id = aid then { a with status := "idle", last_heartbeat := now } :: as
    else a :: registerUpdate aid now as

/-- The fresh record appended by `BaseAgent.register` for a previously
unknown agent id. -/
def newAgentRecord (aid akind : String) (caps : List String) (now : Nat) : AgentRecord :=
  { id := aid
    kind := akind
    status := "idle"
    current_task_id := none
    branch := none
    started_at := now
    last_heartbeat := now
    capabilities := caps
    container_id := none }

/-- The local registry mutation of `BaseAgent.register` (`worker.py` lines
79-137): if the id is already present, reset the record to `idle` with a
fresh heartbeat; otherwise append a new record, recompute `active_count`
and increment `total_spawned`. -/
def registerLocal (reg : Registry) (aid akind : String) (caps : List String) (now : Nat) :
    Registry :=
  if reg.agents.any (fun a => a.id = aid) then
    { reg with
        agents := registerUpdate aid now reg.agents
        metadata := { reg.metadata with last_updated := now } }
  else
    let newAgents := reg.agents ++ [newAgentRecord aid akind caps now]
    { agents := newAgents
      metadata := { reg.metadata with
        active_count := (newAgents.filter (fun a => a.status ≠ "stopped")).length
        total_spawned := reg.metadata.total_spawned + 1
        last_updated := now } }

/-- The agent-list update of `BaseAgent._update_registry_status`
(`worker.py` lines 288-306): set `status`, `current_task_id` and the
heartbeat on the first record with the given id. -/
def updateAgentStatus (aid stat : String) (tid : Option String) (now : Nat) :
    List AgentRecord → List AgentRecord
  | [] => []
  | a :: as =>
    if a.id = aid then
      { a with status := stat, current_task_id := tid, last_heartbeat := now } :: as
    else a :: updateAgentStatus aid stat tid now as

/-- `BaseAgent._update_registry_status` on the registry document; the
registry metadata is not touched by this operation. -/
def updateRegistryStatus (reg : Registry) (aid stat : String) (tid : Option String)
    (now : Nat) : Registry :=
  { reg with agents := updateAgentStatus aid stat tid now reg.agents }

/-- The scan loop of `BaseAgent.find_claimable_task` (`worker.py` lines
167-193), keeping the source's truthiness structure: the dependency check
runs only when `dependencies` is non-empty, the capability check only when
`required_capabilities` is non-empty. -/
def findScan (completedIds caps : List String) : List Task → Option Task
  | [] => none
  | t :: ts =>
    if !t.dependencies.isEmpty
        && !(t.dependencies.all (fun d => completedIds.contains d)) then
      findScan completedIds caps ts
    else if !t.required_capabilities.isEmpty
        && !(t.required_capabilities.any (fun c => caps.contains c)) then
      findScan completedIds caps ts
    else some t

/-- `BaseAgent.find_claimable_task`: scan `pending` in order against the
ids of the `completed` bucket and the agent's capabilities. -/
def findClaimableTask (q : Queue) (caps : List String) : Option Task :=
  findScan (q.completed.map Task.id) caps q.pending

/-- The predicate the spec states for claimability: all dependencies
completed, and `required_capabilities` empty or intersecting the agent's
capabilities. -/
def claimablePred (completedIds caps : List String) (t : Task) : Bool :=
  t.dependencies.all (fun d => completedIds.contains d)
    && (t.required_capabilities.isEmpty
      || t.required_capabilities.any (fun c => caps.contains c))

/-- The complexity-weight table of `Coordinator.calculate_priority`:
`{"low": 1.0, "medium": 1.5, "high": 2.0}.get(complexity, 1.5)`. -/
def complexityWeight (c : String) : ℚ :=
  if c = "low" then 1 else if c = "medium" then 3 / 2
  else if c = "high" then 2 else 3 / 2

/-- `blocking_count` from `Coordinator.calculate_priority`: the number of
pending tasks (the scanned task itself included, should it list its own
id) whose `dependencies` contain this task's id. -/
def blockingCount (q : Queue) (t : Task) : Nat :=
  (q.pending.filter (fun t2 => t2.dependencies.contains t.id)).length

/-- `Coordinator.calculate_priority` (`coordinator.py` lines 145-158):
`priority + blocking_count * 2.0 - complexity_weight`, computed against
the queue as read from disk (so against the pre-sort `pending` list). -/
def calculatePriority (q : Queue) (t : Task) : ℚ :=
  (t.priority : ℚ) + (blockingCount q t : ℚ) * 2 - complexityWeight t.estimated_complexity

/-- `calculate_priority` doubled into half-units, as an integer: every
score the source computes is an exact multiple of 0.5, so comparisons of
the float scores coincide with comparisons of these integers. -/
def calculatePriorityH (q : Queue) (t : Task) : Int :=
  2 * t.priority + (blockingCount q t : Int) * 4
    - (if t.estimated_complexity = "low" then 2
       else if t.estimated_complexity = "medium" then 3
       else if t.estimated_complexity = "high" then 4 else 3)

theorem calculatePriority_eq_half (q : Queue) (t : Task) :
    calculatePriority q t = (calculatePriorityH q t : ℚ) / 2 := by
  unfold calculatePriority calculatePriorityH complexityWeight
  split_ifs <;> push_cast <;> ring

/-- The ordering used to re-sort `pending` descending by score.  Python's
`list.sort(key=..., reverse=True)` is a stable descending sort, which
coincides with `List.insertionSort` under this relation. -/
def scoreGE (q : Queue) (a b : Task) : Prop :=
  calculatePriority q b ≤ calculatePriority q a

theorem scoreGE_iff (q : Queue) (a b : Task) :
    scoreGE q a b ↔ calculatePriorityH q b ≤ calculatePriorityH q a := by
  unfold scoreGE
  rw [calculatePriority_eq_half, calculatePriority_eq_half,
    div_le_div_iff_of_pos_right (by norm_num : (0 : ℚ) < 2), Int.cast_le]

instance (q : Queue) : DecidableRel (scoreGE q) := fun a b =>
  decidable_of_iff _ (scoreGE_iff q a b).symm

/-- `Coordinator.prioritize_tasks` (`coordinator.py` lines 160-177): if
`pending` is empty do nothing; otherwise re-sort `pending` stably in
descending score order (scores computed against the pre-sort queue) and
refresh `last_updated`.  The temporary `_calculated_priority` field is
popped before writing, so tasks are persisted unchanged. -/
def prioritizeTasks (q : Queue) (now : Nat) : Queue :=
  if q.pending.isEmpty then q
  else
    { q with
        pending := q.pending.insertionSort (scoreGE q)
        metadata := { q.metadata with last_updated := now } }

/-- "Other pending tasks" blocking count, following the spec's wording for
`recomputePriorities` (the task itself is excluded); used only to compare
the spec's formula with the source's `calculate_priority`. -/
def specBlockingCount (q : Queue) (t : Task) : Nat :=
  (q.pending.filter (fun t2 => t2.id ≠ t.id && t2.dependencies.contains t.id)).length

/-- The spec's score formula, with the "other tasks" blocking count. -/
def specCalculatePriority (q : Queue) (t : Task) : ℚ :=
  (t.priority : ℚ) + (specBlockingCount q t : ℚ) * 2
    - complexityWeight t.estimated_complexity

/-- The spec's score, doubled into half-units as an integer. -/
def specCalculatePriorityH (q : Queue) (t : Task) : Int :=
  2 * t.priority + (specBlockingCount q t : Int) * 4
    - (if t.estimated_complexity = "low" then 2
       else if t.estimated_complexity = "medium" then 3
       else if t.estimated_complexity = "high" then 4 else 3)

theorem specCalculatePriority_eq_half (q : Queue) (t : Task) :
    specCalculatePriority q t = (specCalculatePriorityH q t : ℚ) / 2 := by
  unfold specCalculatePriority specCalculatePriorityH complexityWeight
  split_ifs <;> push_cast <;> ring

/-- Descending ordering by the spec's score formula. -/
def specScoreGE (q : Queue) (a b : Task) : Prop :=
  specCalculatePriority q b ≤ specCalculatePriority q a

theorem specScoreGE_iff (q : Queue) (a b : Task) :
    specScoreGE q a b ↔ specCalculatePriorityH q b ≤ specCalculatePriorityH q a := by
  unfold specScoreGE
  rw [specCalculatePriority_eq_half, specCalculatePriority_eq_half,
    div_le_div_iff_of_pos_right (by norm_num : (0 : ℚ) < 2), Int.cast_le]

instance (q : Queue) : DecidableRel (specScoreGE q) := fun a b =>
  decidable_of_iff _ (specScoreGE_iff q a b).symm

/-- `recomputePriorities` as the spec words it: the same stable descending
re-sort of `pending`, but scored with the "other tasks" blocking count. -/
def specPrioritizeTasks (q : Queue) (now : Nat) : Queue :=
  if q.pending.isEmpty then q
  else
    { q with
        pending := q.pending.insertionSort (specScoreGE q)
        metadata := { q.metadata with last_updated := now } }

/-! ### The versioned store and the publish/retry loop

`git commit` + `git push` is the compare-and-swap: a push succeeds exactly
when the remote is still at the version the client last pulled, and a
successful push advances the version.  Interference by other participants
is modelled as an optional external write scheduled before each push
attempt (`some g` bumps the version and rewrites the value with `g`). -/

/-- A versioned shared document. -/
structure Store (α : Type) where
  version : Nat
  value : α
deriving DecidableEq, Repr

/-- Apply one scheduled external write (if any) to the store. -/
def applyWrite {α : Type} (st : Store α) : Option (α → α) → Store α
  | some g => { version := st.version + 1, value := g st.value }
  | none => st

/-- Fold a schedule of external writes over the store. -/
def applyWrites {α : Type} (st : Store α) (ws : List (Option (α → α))) : Store α :=
  ws.foldl applyWrite st

/-- The push-retry loop shared by `BaseAgent.register` (`worker.py` lines
125-133) and `BaseAgent.claim_task` (lines 239-249): the locally mutated
value `v` (built once, against version `base`) is pushed up to `fuel`
times; a failed attempt sleeps `2^attempt` and retries the push of the
*same* value without re-fetching.  Returns (success, final store, sleeps
performed). -/
def pushAttempts {α : Type} (base : Nat) (v : α) (st : Store α)
    (writes : List (Option (α → α))) (i fuel : Nat) : Bool × Store α × List Nat :=
  match fuel with
  | 0 => (false, st, [])
  | fuel' + 1 =>
    let st1 := applyWrite st writes.headI
    if st1.version = base then (true, { version := base + 1, value := v }, [])
    else
      let r := pushAttempts base v st1 (writes.drop 1) (i + 1) fuel'
      (r.1, r.2.1, 2 ^ i :: r.2.2)

/-- The whole mutate-and-publish flow as the source performs it: pull once,
apply the mutation once, then run the push-retry loop on the resulting
value. -/
def codePublish {α : Type} (st : Store α) (f : α → α)
    (writes : List (Option (α → α))) (maxRetries : Nat) : Bool × Store α × List Nat :=
  pushAttempts st.version (f st.value) st writes 0 maxRetries

/-- Modelled from the spec: the Claim Protocol of spec §4.1, whose conflict
handling ("discard the local mutation, re-fetch, and retry the whole
mutate-and-publish cycle") is not present under `src/` as a reusable
routine; each retry re-reads the store and re-applies the mutation before
attempting the compare-and-swap. -/
def specPublish {α : Type} (st : Store α) (f : α → α)
    (writes : List (Option (α → α))) (i fuel : Nat) : Bool × Store α × List Nat :=
  match fuel with
  | 0 => (false, st, [])
  | fuel' + 1 =>
    let base := st.version
    let v := f st.value
    let st1 := applyWrite st writes.headI
    if st1.version = base then (true, { version := base + 1, value := v }, [])
    else
      let r := specPublish st1 f (writes.drop 1) (i + 1) fuel'
      (r.1, r.2.1, 2 ^ i :: r.2.2)

/-! ### Serialized claim races and the worker loop -/

/-- A serialized sequence of `claim_task` attempts on the same task id by a
list of agents over the CAS store: each attempt pulls the latest queue,
mutates, and publishes before the next begins.  Returns the final queue
and each attempt's outcome, in order. -/
def runClaims (q : Queue) (tid : String) (now : Nat) : List String → Queue × List Bool
  | [] => (q, [])
  | a :: as =>
    let r := claimStep q tid a now
    let rest := runClaims r.1 tid now as
    (rest.1, r.2 :: rest.2)

/-- The process-local fields of `BaseAgent` that the `run` loop mutates. -/
structure WorkerLocal where
  agent_id : String
  capabilities : List String
  status : String
  current_task_id : Option String
deriving DecidableEq, Repr

/-- One pass of the idle branch of `BaseAgent.run` (`worker.py` lines
417-429), with the opaque `execute_task` outcome passed in as `execOk`:
find a claimable task, claim it (queue move plus registry status update
plus local fields), then either complete it (on success) or — on failure —
set only the local `status` back to `"idle"`. -/
def workerIteration (w : WorkerLocal) (q : Queue) (reg : Registry) (execOk : Bool)
    (now : Nat) : WorkerLocal × Queue × Registry :=
  if w.status = "idle" then
    match findClaimableTask q w.capabilities with
    | none => (w, q, reg)
    | some task =>
      let r := claimStep q task.id w.agent_id now
      if r.2 then
        let reg1 := updateRegistryStatus reg w.agent_id "active" (some task.id) now
        let w1 : WorkerLocal := { w with current_task_id := some task.id, status := "active" }
        if execOk then
          let q2 := completeTask r.1 task.id w.agent_id now
          let reg2 := updateRegistryStatus reg1 w.agent_id "idle" none now
          ({ w1 with current_task_id := none, status := "idle" }, q2, reg2)
        else
          ({ w1 with status := "idle" }, r.1, reg1)
      else (w, q, reg)
  else (w, q, reg)

/-! ### Reachability and conservation -/

/-- Total number of tasks across the four queue buckets. -/
def totalTasks (q : Queue) : Nat :=
  q.pending.length + q.in_progress.length + q.completed.length + q.blocked.length

/-- Queue states reachable from `q0` by the three task-moving operations
(claim, complete, release). -/
inductive ReachableQ (q0 : Queue) : Queue → Prop
  | refl : ReachableQ q0 q0
  | claim (q : Queue) (tid a : String) (now : Nat) :
      ReachableQ q0 q → ReachableQ q0 (claimStep q tid a now).1
  | complete (q : Queue) (tid a : String) (now : Nat) :
      ReachableQ q0 q → ReachableQ q0 (completeTask q tid a now)
  | release (q : Queue) (failed : List String) (now : Nat) :
      ReachableQ q0 q → ReachableQ q0 (releaseFailedTasks q failed now)

/-! ### Helper lemmas -/

theorem countId_cons (t : Task) (ts : List Task) (tid : String) :
    countId (t :: ts) tid = (if t.id = tid then 1 else 0) + countId ts tid := by
  by_cases h : t.id = tid
  · simp [countId, List.filter_cons, h]
    omega
  · simp [countId, List.filter_cons, h]

theorem extractFirst_eq_none_iff (tid : String) (upd : Task → Task) (l : List Task) :
    extractFirst tid upd l = none ↔ countId l tid = 0 := by
  induction l with
  | nil => simp [extractFirst, countId]
  | cons t ts ih =>
    by_cases h : t.id = tid
    · simp [extractFirst, h, countId_cons]
    · simp [extractFirst, h, countId_cons, Option.map_eq_none', ih]

theorem extractFirst_eq_some (tid : String) (upd : Task → Task) {l rest : List Task}
    {ct : Task} (h : extractFirst tid upd l = some (rest, ct)) :
    rest.length + 1 = l.length ∧ countId rest tid + 1 = countId l tid ∧
    ∃ t, t ∈ l ∧ t.id = tid ∧ ct = upd t := by
  induction l generalizing rest ct with
  | nil => simp [extractFirst] at h
  | cons t ts ih =>
    by_cases ht : t.id = tid
    · simp only [extractFirst, if_pos ht, Option.some.injEq, Prod.mk.injEq] at h
      obtain ⟨h1, h2⟩ := h
      subst h1; subst h2
      exact ⟨rfl, by simp [countId_cons, ht, Nat.add_comm],
        t, List.mem_cons_self t ts, ht, rfl⟩
    · cases hE : extractFirst tid upd ts with
      | none => simp [extractFirst, ht, hE] at h
      | some p =>
        simp only [extractFirst, if_neg ht, hE, Option.map_some', Option.some.injEq,
          Prod.mk.injEq] at h
        obtain ⟨h1, h2⟩ := h
        subst h1; subst h2
        obtain ⟨l1, l2, t0, ht0, hid, hct⟩ := ih hE
        exact ⟨by simp only [List.length_cons]; omega,
          by simpa [countId_cons, ht] using l2,
          t0, List.mem_cons_of_mem t ht0, hid, hct⟩

theorem claimStep_of_absent {q : Queue} {tid : String} (a : String) (now : Nat)
    (h : countId q.pending tid = 0) : claimStep q tid a now = (q, false) := by
  have hE := (extractFirst_eq_none_iff tid
    (fun t => { t with claimed_by := some a, claimed_at := some now }) q.pending).mpr h
  simp [claimStep, hE]

theorem runClaims_of_absent {q : Queue} {tid : String} (now : Nat) (as : List String)
    (h : countId q.pending tid = 0) :
    runClaims q tid now as = (q, as.map fun _ => false) := by
  induction as with
  | nil => simp [runClaims]
  | cons a as ih => simp [runClaims, claimStep_of_absent a now h, ih]

/-! ### C1: at-most-one-claim -/

/-- C1: starting from a queue in which the task id occurs (exactly once, as
the bucket invariant requires) in `pending`, a serialized sequence of
`claim_task` attempts by a list of agents over the CAS store has exactly
one winner — the first attempt — which moves the task to `in_progress`
with `claimed_by` set to that agent and `claimed_at` stamped; every later
attempt observes a lost claim. -/
theorem claim_at_most_one (q : Queue) (tid a : String) (as : List String) (now : Nat)
    (h : countId q.pending tid = 1) :
    (runClaims q tid now (a :: as)).2 = true :: as.map (fun _ => false) ∧
    ∃ t, t ∈ (runClaims q tid now (a :: as)).1.in_progress ∧ t.id = tid ∧
      t.claimed_by = some a ∧ t.claimed_at = some now := by
  cases hE : extractFirst tid
      (fun t => { t with claimed_by := some a, claimed_at := some now }) q.pending with
  | none =>
    rw [extractFirst_eq_none_iff] at hE
    omega
  | some p =>
    obtain ⟨hlen, hcnt, t0, hmem, hid, hct⟩ := extractFirst_eq_some _ _ hE
    have hq1 : claimStep q tid a now =
        ({ q with
            pending := p.1
            in_progress := q.in_progress ++ [p.2]
            metadata := { q.metadata with last_updated := now } }, true) := by
      simp [claimStep, hE]
    have hrest : countId p.1 tid = 0 := by omega
    have habs : countId ({ q with
        pending := p.1
        in_progress := q.in_progress ++ [p.2]
        metadata := { q.metadata with last_updated := now } } : Queue).pending tid = 0 :=
      hrest
    have hrun := runClaims_of_absent now as habs
    refine ⟨?_, p.2, ?_, ?_, ?_, ?_⟩
    · simp [runClaims, hq1, hrun]
    · simp [runClaims, hq1, hrun]
    · simp [hct, hid]
    · simp [hct]
    · simp [hct]

/-- Witness for C1 on a concrete one-task queue raced by three agents. -/
theorem claim_at_most_one_witness :
    countId (Queue.mk
      [{ id := "T", title := "t", priority := 5, estimated_complexity := "medium",
         dependencies := [], required_capabilities := [], claimed_by := none,
         claimed_at := none, completed_by := none, completed_at := none }]
      [] [] [] ⟨0, 1, 0⟩).pending "T" = 1 ∧
    ((runClaims (Queue.mk
      [{ id := "T", title := "t", priority := 5, estimated_complexity := "medium",
         dependencies := [], required_capabilities := [], claimed_by := none,
         claimed_at := none, completed_by := none, completed_at := none }]
      [] [] [] ⟨0, 1, 0⟩) "T" 7 ["a1", "a2", "a3"]).2
        = true :: ["a2", "a3"].map (fun _ => false) ∧
      ∃ t, t ∈ (runClaims (Queue.mk
        [{ id := "T", title := "t", priority := 5, estimated_complexity := "medium",
           dependencies := [], required_capabilities := [], claimed_by := none,
           claimed_at := none, completed_by := none, completed_at := none }]
        [] [] [] ⟨0, 1, 0⟩) "T" 7 ["a1", "a2", "a3"]).1.in_progress ∧ t.id = "T" ∧
        t.claimed_by = some "a1" ∧ t.claimed_at = some 7) :=
  ⟨by decide, claim_at_most_one _ "T" "a1" ["a2", "a3"] 7 (by decide)⟩

/-! ### C5: task conservation -/

theorem claimStep_totalTasks (q : Queue) (tid a : String) (now : Nat) :
    totalTasks (claimStep q tid a now).1 = totalTasks q := by
  cases hE : extractFirst tid
      (fun t => { t with claimed_by := some a, claimed_at := some now }) q.pending with
  | none => simp [claimStep, hE]
  | some p =>
    obtain ⟨hlen, -, -⟩ := extractFirst_eq_some _ _ hE
    simp only [claimStep, hE, totalTasks, List.length_append, List.length_cons,
      List.length_nil]
    omega

theorem completeTask_totalTasks (q : Queue) (tid a : String) (now : Nat) :
    totalTasks (completeTask q tid a now) = totalTasks q := by
  cases hE : extractFirst tid
      (fun t => { t with completed_by := some a, completed_at := some now })
      q.in_progress with
  | none => simp [completeTask, hE, totalTasks]
  | some p =>
    obtain ⟨hlen, -, -⟩ := extractFirst_eq_some _ _ hE
    simp only [completeTask, hE, totalTasks, List.length_append, List.length_cons,
      List.length_nil]
    omega

theorem releaseFailedTasks_totalTasks (q : Queue) (failed : List String) (now : Nat) :
    totalTasks (releaseFailedTasks q failed now) = totalTasks q := by
  unfold releaseFailedTasks
  split
  · rfl
  · dsimp only
    split
    · simp only [totalTasks, List.length_append]
      have := List.length_eq_length_filter_add (l := q.in_progress) (claimedByFailed failed)
      omega
    · rfl

/-- C5: the three queue operations (claim, complete, release) each preserve
the total number of tasks held in the four buckets, and therefore every
queue state reachable from an initial queue by those operations holds
exactly as many tasks as the initial queue — no task is deleted or
duplicated. -/
theorem task_conservation :
    (∀ (q : Queue) (tid a : String) (now : Nat),
      totalTasks (claimStep q tid a now).1 = totalTasks q) ∧
    (∀ (q : Queue) (tid a : String) (now : Nat),
      totalTasks (completeTask q tid a now) = totalTasks q) ∧
    (∀ (q : Queue) (failed : List String) (now : Nat),
      totalTasks (releaseFailedTasks q failed now) = totalTasks q) ∧
    (∀ (q0 q : Queue), ReachableQ q0 q → totalTasks q = totalTasks q0) := by
  refine ⟨claimStep_totalTasks, completeTask_totalTasks, releaseFailedTasks_totalTasks, ?_⟩
  intro q0 q h
  induction h with
  | refl => rfl
  | claim q tid a now _ ih => rw [claimStep_totalTasks]; exact ih
  | complete q tid a now _ ih => rw [completeTask_totalTasks]; exact ih
  | release q failed now _ ih => rw [releaseFailedTasks_totalTasks]; exact ih

/-- Witness for C5: a two-step reachable state (one claim, one complete)
of a concrete queue still holds both tasks. -/
theorem task_conservation_witness :
    totalTasks (completeTask (claimStep (Queue.mk
      [{ id := "U", title := "u", priority := 5, estimated_complexity := "low",
         dependencies := [], required_capabilities := [], claimed_by := none,
         claimed_at := none, completed_by := none, completed_at := none },
       { id := "V", title := "v", priority := 5, estimated_complexity := "low",
         dependencies := [], required_capabilities := [], claimed_by := none,
         claimed_at := none, completed_by := none, completed_at := none }]
      [] [] [] ⟨0, 2, 0⟩) "U" "a1" 3).1 "U" "a1" 4) = 2 :=
  Trans.trans
    (task_conservation.2.2.2 _ _
      (ReachableQ.complete _ "U" "a1" 4 (ReachableQ.claim _ "U" "a1" 3 ReachableQ.refl)))
    (by decide)

/-! ### C10: the completion counter -/

/-- C10: `complete_task` increments `total_tasks_completed` and refreshes
`last_updated` on every call, and when the given id is not in
`in_progress` no bucket changes — so the counter can exceed the number of
tasks actually in `completed`. -/
theorem complete_counter_increment (q : Queue) (tid agent : String) (now : Nat)
    (h : countId q.in_progress tid = 0) :
    (∀ (q2 : Queue) (tid2 agent2 : String) (now2 : Nat),
      (completeTask q2 tid2 agent2 now2).metadata.total_tasks_completed
          = q2.metadata.total_tasks_completed + 1 ∧
      (completeTask q2 tid2 agent2 now2).metadata.last_updated = now2) ∧
    (completeTask q tid agent now).pending = q.pending ∧
    (completeTask q tid agent now).in_progress = q.in_progress ∧
    (completeTask q tid agent now).completed = q.completed ∧
    (completeTask q tid agent now).blocked = q.blocked := by
  have hE := (extractFirst_eq_none_iff tid
    (fun t => { t with completed_by := some agent, completed_at := some now })
    q.in_progress).mpr h
  refine ⟨?_, by simp [completeTask, hE], by simp [completeTask, hE],
    by simp [completeTask, hE], by simp [completeTask, hE]⟩
  intro q2 tid2 agent2 now2
  cases hE2 : extractFirst tid2
      (fun t => { t with completed_by := some agent2, completed_at := some now2 })
      q2.in_progress with
  | none => simp [completeTask, hE2]
  | some p => simp [completeTask, hE2]

/-- Witness for C10 on a concrete queue whose `in_progress` bucket does not
hold the completed id: the counter reaches 1 while `completed` stays
empty. -/
theorem complete_counter_increment_witness :
    countId (Queue.mk []
      [{ id := "X", title := "x", priority := 5, estimated_complexity := "low",
         dependencies := [], required_capabilities := [], claimed_by := some "a9",
         claimed_at := some 1, completed_by := none, completed_at := none }]
      [] [] ⟨0, 1, 0⟩).in_progress "missing" = 0 ∧
    (completeTask (Queue.mk []
      [{ id := "X", title := "x", priority := 5, estimated_complexity := "low",
         dependencies := [], required_capabilities := [], claimed_by := some "a9",
         claimed_at := some 1, completed_by := none, completed_at := none }]
      [] [] ⟨0, 1, 0⟩) "missing" "a1" 5).completed.length
      < (completeTask (Queue.mk []
      [{ id := "X", title := "x", priority := 5, estimated_complexity := "low",
         dependencies := [], required_capabilities := [], claimed_by := some "a9",
         claimed_at := some 1, completed_by := none, completed_at := none }]
      [] [] ⟨0, 1, 0⟩) "missing" "a1" 5).metadata.total_tasks_completed ∧
    ((∀ (q2 : Queue) (tid2 agent2 : String) (now2 : Nat),
      (completeTask q2 tid2 agent2 now2).metadata.total_tasks_completed
          = q2.metadata.total_tasks_completed + 1 ∧
      (completeTask q2 tid2 agent2 now2).metadata.last_updated = now2) ∧
    (completeTask (Queue.mk []
      [{ id := "X", title := "x", priority := 5, estimated_complexity := "low",
         dependencies := [], required_capabilities := [], claimed_by := some "a9",
         claimed_at := some 1, completed_by := none, completed_at := none }]
      [] [] ⟨0, 1, 0⟩) "missing" "a1" 5).pending = [] ∧
    (completeTask (Queue.mk []
      [{ id := "X", title := "x", priority := 5, estimated_complexity := "low",
         dependencies := [], required_capabilities := [], claimed_by := some "a9",
         claimed_at := some 1, completed_by := none, completed_at := none }]
      [] [] ⟨0, 1, 0⟩) "missing" "a1" 5).in_progress
        = [{ id := "X", title := "x", priority := 5, estimated_complexity := "low",
             dependencies := [], required_capabilities := [], claimed_by := some "a9",
             claimed_at := some 1, completed_by := none, completed_at := none }] ∧
    (completeTask (Queue.mk []
      [{ id := "X", title := "x", priority := 5, estimated_complexity := "low",
         dependencies := [], required_capabilities := [], claimed_by := some "a9",
         claimed_at := some 1, completed_by := none, completed_at := none }]
      [] [] ⟨0, 1, 0⟩) "missing" "a1" 5).completed = [] ∧
    (completeTask (Queue.mk []
      [{ id := "X", title := "x", priority := 5, estimated_complexity := "low",
         dependencies := [], required_capabilities := [], claimed_by := some "a9",
         claimed_at := some 1, completed_by := none, completed_at := none }]
      [] [] ⟨0, 1, 0⟩) "missing" "a1" 5).blocked = []) :=
  ⟨by decide, by decide, complete_counter_increment _ "missing" "a1" 5 (by decide)⟩

/-! ### C2: what the release sweep does to the released task's fields -/

/-- Counterexample to C2 as stated: releasing the task claimed by the
timed-out agent `"a1"` puts it back in `pending` with `claimed_by` still
`some "a1"` and `claimed_at` still stamped — the fields are not cleared. -/
theorem release_keeps_claim_fields_counterexample :
    ((releaseFailedTasks (Queue.mk []
      [{ id := "T", title := "t", priority := 5, estimated_complexity := "low",
         dependencies := [], required_capabilities := [], claimed_by := some "a1",
         claimed_at := some 7, completed_by := none, completed_at := none }]
      [] [] ⟨0, 1, 0⟩) ["a1"] 9).pending.map Task.claimed_by = [some "a1"]) ∧
    ((releaseFailedTasks (Queue.mk []
      [{ id := "T", title := "t", priority := 5, estimated_complexity := "low",
         dependencies := [], required_capabilities := [], claimed_by := some "a1",
         claimed_at := some 7, completed_by := none, completed_at := none }]
      [] [] ⟨0, 1, 0⟩) ["a1"] 9).pending.map Task.claimed_at = [some 7]) ∧
    ((releaseFailedTasks (Queue.mk []
      [{ id := "T", title := "t", priority := 5, estimated_complexity := "low",
         dependencies := [], required_capabilities := [], claimed_by := some "a1",
         claimed_at := some 7, completed_by := none, completed_at := none }]
      [] [] ⟨0, 1, 0⟩) ["a1"] 9).in_progress = []) ∧
    some "a1" ≠ (none : Option String) := by
  refine ⟨by decide, by decide, by decide, by decide⟩

/-- C2 amended: `release_failed_tasks` appends every `in_progress` task
claimed by a failed agent to `pending` exactly as it was — `claimed_by`
and `claimed_at` are retained, not cleared — and removes it from
`in_progress`; the other buckets and the completion counter are
untouched. -/
theorem release_moves_without_clearing (q : Queue) (failed : List String) (now : Nat) :
    (releaseFailedTasks q failed now).pending
        = q.pending ++ q.in_progress.filter (claimedByFailed failed) ∧
    (releaseFailedTasks q failed now).in_progress
        = q.in_progress.filter (fun t => !(claimedByFailed failed t)) ∧
    (releaseFailedTasks q failed now).completed = q.completed ∧
    (releaseFailedTasks q failed now).blocked = q.blocked ∧
    (releaseFailedTasks q failed now).metadata.total_tasks_completed
        = q.metadata.total_tasks_completed := by
  by_cases hf : failed.isEmpty = true
  · have hfe : failed = [] := List.isEmpty_iff.mp hf
    subst hfe
    have hcb : ∀ t : Task, claimedByFailed [] t = false := by
      intro t
      cases h : t.claimed_by <;> simp [claimedByFailed, h]
    have h1 : q.in_progress.filter (claimedByFailed []) = [] :=
      List.filter_eq_nil_iff.mpr (fun t _ => by simp [hcb t])
    have h2 : q.in_progress.filter (fun t => !(claimedByFailed [] t)) = q.in_progress :=
      List.filter_eq_self.mpr (fun t _ => by simp [hcb t])
    simp [releaseFailedTasks, h1, h2]
  · by_cases hm : 0 < (q.in_progress.filter (claimedByFailed failed)).length
    · simp [releaseFailedTasks, hf, hm]
    · have hnil : q.in_progress.filter (claimedByFailed failed) = [] :=
        List.length_eq_zero.mp (by omega)
      have h2 : q.in_progress.filter (fun t => !(claimedByFailed failed t))
          = q.in_progress :=
        List.filter_eq_self.mpr (fun t ht => by
          have hfalse : claimedByFailed failed t = false := by
            by_contra hc
            have : t ∈ q.in_progress.filter (claimedByFailed failed) :=
              List.mem_filter.mpr ⟨ht, by simpa using hc⟩
            simp [hnil] at this
          simp [hfalse])
      simp [releaseFailedTasks, hf, hm, hnil, h2]

/-! ### C3: the heartbeat sweep -/

/-- The condition under which `check_heartbeats` flags an agent: not
skipped (status neither `stopped` nor `idle`) and heartbeat older than
the timeout. -/
def sweepTimesOut (now timeout : Nat) (a : AgentRecord) : Prop :=
  ¬(a.status = "stopped" ∨ a.status = "idle") ∧ timeout < now - a.last_heartbeat

instance (now timeout : Nat) (a : AgentRecord) : Decidable (sweepTimesOut now timeout a) :=
  inferInstanceAs (Decidable (_ ∧ _))

theorem checkAgent_eq (now timeout : Nat) (a : AgentRecord) :
    checkAgent now timeout a
      = if sweepTimesOut now timeout a then ({ a with status := "timed_out" }, some a.id)
        else (a, none) := by
  unfold checkAgent sweepTimesOut
  by_cases h1 : a.status = "stopped" ∨ a.status = "idle"
  · simp [h1]
  · by_cases h2 : timeout < now - a.last_heartbeat <;> simp [h1, h2]

/-- Counterexample to C3 as stated: an `idle` agent whose heartbeat is far
older than the timeout (claim trigger: status in {idle, active} and stale)
is left `idle` by one sweep, and not reported as failed. -/
theorem heartbeat_sweep_skips_idle_counterexample :
    (("idle" = "idle" ∨ "idle" = "active") ∧ 600 < 1000000 - 0) ∧
    ((checkHeartbeats
      [{ id := "a1", kind := "coder", status := "idle", current_task_id := none,
         branch := none, started_at := 0, last_heartbeat := 0, capabilities := [],
         container_id := none }] 1000000 600).1.map AgentRecord.status = ["idle"]) ∧
    ((checkHeartbeats
      [{ id := "a1", kind := "coder", status := "idle", current_task_id := none,
         branch := none, started_at := 0, last_heartbeat := 0, capabilities := [],
         container_id := none }] 1000000 600).2 = []) ∧
    "idle" ≠ "timed_out" := by
  refine ⟨⟨Or.inl rfl, by decide⟩, by decide, by decide, by decide⟩

/-- C3 amended: one sweep sets `status = timed_out` for exactly the agents
whose status is neither `stopped` nor `idle` and whose heartbeat is older
than the timeout, reporting their ids in order; every other record —
including stale `idle` agents, which the source skips — is unchanged. -/
theorem check_heartbeats_spec (agents : List AgentRecord) (now timeout : Nat) :
    (checkHeartbeats agents now timeout).1
      = agents.map (fun a =>
          if sweepTimesOut now timeout a then { a with status := "timed_out" } else a) ∧
    (checkHeartbeats agents now timeout).2
      = (agents.filter (fun a => decide (sweepTimesOut now timeout a))).map
          AgentRecord.id := by
  induction agents with
  | nil => exact ⟨rfl, rfl⟩
  | cons a as ih =>
    by_cases h : sweepTimesOut now timeout a <;>
      simp [checkHeartbeats, checkAgent_eq, h, List.filter_cons, ih.1, ih.2]

/-! ### C6: find_claimable_task -/

theorem findScan_eq_find? (completedIds caps : List String) (l : List Task) :
    findScan completedIds caps l = l.find? (claimablePred completedIds caps) := by
  induction l with
  | nil => rfl
  | cons t ts ih =>
    cases hall : t.dependencies.all (fun d => completedIds.contains d) with
    | true =>
      have g1 : (!t.dependencies.isEmpty
          && !(t.dependencies.all (fun d => completedIds.contains d))) = false := by
        rw [hall]; simp
      cases hcap : (t.required_capabilities.isEmpty
          || t.required_capabilities.any (fun c => caps.contains c)) with
      | true =>
        have g2 : (!t.required_capabilities.isEmpty
            && !(t.required_capabilities.any (fun c => caps.contains c))) = false := by
          rw [← Bool.not_or, hcap]; rfl
        have hp : claimablePred completedIds caps t = true := by
          simp only [claimablePred, hall, hcap, Bool.and_self]
        rw [List.find?_cons_of_pos ts hp]
        simp only [findScan, g1, g2, Bool.false_eq_true, if_false]
      | false =>
        have g2 : (!t.required_capabilities.isEmpty
            && !(t.required_capabilities.any (fun c => caps.contains c))) = true := by
          rw [← Bool.not_or, hcap]; rfl
        have hp : claimablePred completedIds caps t = false := by
          simp only [claimablePred, hcap, Bool.and_false]
        rw [List.find?_cons_of_neg ts (by simp [hp])]
        simp only [findScan, g1, g2, Bool.false_eq_true, if_false, if_true, ih]
    | false =>
      have hne : t.dependencies.isEmpty = false := by
        cases hdeps : t.dependencies.isEmpty
        · rfl
        · rw [List.isEmpty_iff.mp hdeps] at hall
          simp at hall
      have g1 : (!t.dependencies.isEmpty
          && !(t.dependencies.all (fun d => completedIds.contains d))) = true := by
        rw [hne, hall]; rfl
      have hp : claimablePred completedIds caps t = false := by
        simp only [claimablePred, hall, Bool.false_and]
      rw [List.find?_cons_of_neg ts (by simp [hp])]
      simp only [findScan, g1, if_true, ih]

/-- C6: `find_claimable_task` scans `pending` in order and returns its
first task whose dependencies are all completed and whose required
capabilities are empty or intersect the agent's; in particular, with task
B depending on the not-yet-completed A it returns A regardless of bucket
order, and a task requiring `python` is returned exactly to agents holding
that capability. -/
theorem find_claimable_first_match :
    (∀ (q : Queue) (caps : List String),
      findClaimableTask q caps
        = q.pending.find? (claimablePred (q.completed.map Task.id) caps)) ∧
    (findClaimableTask (Queue.mk
      [{ id := "A", title := "a", priority := 5, estimated_complexity := "low",
         dependencies := [], required_capabilities := [], claimed_by := none,
         claimed_at := none, completed_by := none, completed_at := none },
       { id := "B", title := "b", priority := 5, estimated_complexity := "low",
         dependencies := ["A"], required_capabilities := [], claimed_by := none,
         claimed_at := none, completed_by := none, completed_at := none }]
      [] [] [] ⟨0, 2, 0⟩) [] = some
      { id := "A", title := "a", priority := 5, estimated_complexity := "low",
        dependencies := [], required_capabilities := [], claimed_by := none,
        claimed_at := none, completed_by := none, completed_at := none }) ∧
    (findClaimableTask (Queue.mk
      [{ id := "B", title := "b", priority := 5, estimated_complexity := "low",
         dependencies := ["A"], required_capabilities := [], claimed_by := none,
         claimed_at := none, completed_by := none, completed_at := none },
       { id := "A", title := "a", priority := 5, estimated_complexity := "low",
         dependencies := [], required_capabilities := [], claimed_by := none,
         claimed_at := none, completed_by := none, completed_at := none }]
      [] [] [] ⟨0, 2, 0⟩) [] = some
      { id := "A", title := "a", priority := 5, estimated_complexity := "low",
        dependencies := [], required_capabilities := [], claimed_by := none,
        claimed_at := none, completed_by := none, completed_at := none }) ∧
    (findClaimableTask (Queue.mk
      [{ id := "P", title := "p", priority := 5, estimated_complexity := "low",
         dependencies := [], required_capabilities := ["python"], claimed_by := none,
         claimed_at := none, completed_by := none, completed_at := none }]
      [] [] [] ⟨0, 1, 0⟩) ["design"] = none) ∧
    (findClaimableTask (Queue.mk
      [{ id := "P", title := "p", priority := 5, estimated_complexity := "low",
         dependencies := [], required_capabilities := ["python"], claimed_by := none,
         claimed_at := none, completed_by := none, completed_at := none }]
      [] [] [] ⟨0, 1, 0⟩) ["python", "design"] = some
      { id := "P", title := "p", priority := 5, estimated_complexity := "low",
        dependencies := [], required_capabilities := ["python"], claimed_by := none,
        claimed_at := none, completed_by := none, completed_at := none }) :=
  ⟨fun q caps => findScan_eq_find? (q.completed.map Task.id) caps q.pending,
   by decide, by decide, by decide, by decide⟩

/-! ### C8: idempotent registration -/

/-- Number of registry records carrying a given agent id. -/
def countAgentL (l : List AgentRecord) (aid : String) : Nat :=
  (l.filter (fun a => a.id = aid)).length

theorem countAgentL_cons (a : AgentRecord) (l : List AgentRecord) (aid : String) :
    countAgentL (a :: l) aid = (if a.id = aid then 1 else 0) + countAgentL l aid := by
  by_cases h : a.id = aid
  · simp [countAgentL, List.filter_cons, h]
    omega
  · simp [countAgentL, List.filter_cons, h]

theorem any_iff_countAgentL_pos (l : List AgentRecord) (aid : String) :
    l.any (fun a => a.id = aid) = true ↔ 0 < countAgentL l aid := by
  induction l with
  | nil => simp [countAgentL]
  | cons a as ih =>
    by_cases h : a.id = aid <;> simp [countAgentL_cons, h, ih]

theorem registerUpdate_length (aid : String) (now : Nat) (l : List AgentRecord) :
    (registerUpdate aid now l).length = l.length := by
  induction l with
  | nil => rfl
  | cons a as ih =>
    by_cases h : a.id = aid <;> simp [registerUpdate, h, ih]

theorem registerUpdate_countAgentL (aid : String) (now : Nat) (l : List AgentRecord) :
    countAgentL (registerUpdate aid now l) aid = countAgentL l aid := by
  induction l with
  | nil => rfl
  | cons a as ih =>
    by_cases h : a.id = aid <;>
      simp [registerUpdate, h, countAgentL_cons, ih]

theorem registerUpdate_mem (aid : String) (now : Nat) (l : List AgentRecord)
    (h : l.any (fun a => a.id = aid) = true) :
    ∃ a ∈ registerUpdate aid now l, a.id = aid ∧ a.status = "idle" ∧
      a.last_heartbeat = now := by
  induction l with
  | nil => simp at h
  | cons a as ih =>
    by_cases ha : a.id = aid
    · refine ⟨{ a with status := "idle", last_heartbeat := now }, ?_, ha, rfl, rfl⟩
      simp [registerUpdate, ha]
    · have h2 : as.any (fun a => a.id = aid) = true := by
        simp only [List.any_cons, Bool.or_eq_true, decide_eq_true_eq] at h
        rcases h with h | h
        · exact absurd h ha
        · simpa using h
      obtain ⟨b, hb, hrest⟩ := ih h2
      exact ⟨b, by simp [registerUpdate, ha, hb], hrest⟩

theorem registerLocal_existing (reg : Registry) (aid akind : String) (caps : List String)
    (now : Nat) (hany : reg.agents.any (fun a => a.id = aid) = true) :
    registerLocal reg aid akind caps now
      = { reg with
          agents := registerUpdate aid now reg.agents
          metadata := { reg.metadata with last_updated := now } } := by
  simp [registerLocal, hany]

theorem registerLocal_new (reg : Registry) (aid akind : String) (caps : List String)
    (now : Nat) (hany : ¬(reg.agents.any (fun a => a.id = aid) = true)) :
    registerLocal reg aid akind caps now
      = { agents := reg.agents ++ [newAgentRecord aid akind caps now]
          metadata := { reg.metadata with
            active_count := ((reg.agents ++ [newAgentRecord aid akind caps now]).filter
              (fun a => a.status ≠ "stopped")).length
            total_spawned := reg.metadata.total_spawned + 1
            last_updated := now } } := by
  simp [registerLocal, hany]

/-- C8: `register` is an idempotent upsert.  From a registry holding at
most one record for an id, registering twice with that id leaves exactly
one record; the second call appends nothing, resets the record to `idle`
with the fresh heartbeat, and does not change `total_spawned` —
`total_spawned` grows only on the call that actually appends. -/
theorem register_idempotent (reg : Registry) (aid akind : String) (caps : List String)
    (t1 t2 : Nat) (h : countAgentL reg.agents aid ≤ 1) :
    countAgentL (registerLocal (registerLocal reg aid akind caps t1)
        aid akind caps t2).agents aid = 1 ∧
    (registerLocal (registerLocal reg aid akind caps t1) aid akind caps t2).agents.length
        = (registerLocal reg aid akind caps t1).agents.length ∧
    (∃ a ∈ (registerLocal (registerLocal reg aid akind caps t1)
        aid akind caps t2).agents,
      a.id = aid ∧ a.status = "idle" ∧ a.last_heartbeat = t2) ∧
    (registerLocal (registerLocal reg aid akind caps t1)
        aid akind caps t2).metadata.total_spawned
        = (registerLocal reg aid akind caps t1).metadata.total_spawned ∧
    (countAgentL reg.agents aid = 0 →
      (registerLocal reg aid akind caps t1).agents.length = reg.agents.length + 1 ∧
      (registerLocal reg aid akind caps t1).metadata.total_spawned
        = reg.metadata.total_spawned + 1) ∧
    (countAgentL reg.agents aid = 1 →
      (registerLocal reg aid akind caps t1).agents.length = reg.agents.length ∧
      (registerLocal reg aid akind caps t1).metadata.total_spawned
        = reg.metadata.total_spawned) := by
  have hcount1 : countAgentL (registerLocal reg aid akind caps t1).agents aid = 1 := by
    by_cases hany : reg.agents.any (fun a => a.id = aid) = true
    · have hpos := (any_iff_countAgentL_pos reg.agents aid).mp hany
      rw [registerLocal_existing reg aid akind caps t1 hany]
      dsimp only
      rw [registerUpdate_countAgentL]
      omega
    · have h0 : countAgentL reg.agents aid = 0 := by
        by_contra hc
        exact hany ((any_iff_countAgentL_pos reg.agents aid).mpr (by omega))
      rw [registerLocal_new reg aid akind caps t1 hany]
      dsimp only
      simp only [countAgentL, List.filter_append, List.length_append] at h0 ⊢
      simp [h0, newAgentRecord]
  have hany1 : (registerLocal reg aid akind caps t1).agents.any
      (fun a => a.id = aid) = true :=
    (any_iff_countAgentL_pos _ aid).mpr (by omega)
  have e2 := registerLocal_existing (registerLocal reg aid akind caps t1)
    aid akind caps t2 hany1
  refine ⟨?_, ?_, ?_, ?_, ?_, ?_⟩
  · rw [e2]
    dsimp only
    rw [registerUpdate_countAgentL]
    exact hcount1
  · rw [e2]
    dsimp only
    exact registerUpdate_length ..
  · rw [e2]
    dsimp only
    exact registerUpdate_mem aid t2 _ hany1
  · rw [e2]
  · intro h0
    have hany0 : ¬(reg.agents.any (fun a => a.id = aid) = true) := by
      intro hc
      have := (any_iff_countAgentL_pos reg.agents aid).mp hc
      omega
    rw [registerLocal_new reg aid akind caps t1 hany0]
    simp
  · intro h1
    have hany0 : reg.agents.any (fun a => a.id = aid) = true :=
      (any_iff_countAgentL_pos reg.agents aid).mpr (by omega)
    rw [registerLocal_existing reg aid akind caps t1 hany0]
    simp [registerUpdate_length]

/-- Witness for C8: registering the same id twice on an empty registry. -/
theorem register_idempotent_witness :
    countAgentL (Registry.mk [] ⟨0, 0, 0⟩).agents "a1" ≤ 1 ∧
    (countAgentL (registerLocal (registerLocal (Registry.mk [] ⟨0, 0, 0⟩)
        "a1" "coder" ["python"] 1) "a1" "coder" ["python"] 2).agents "a1" = 1 ∧
    (registerLocal (registerLocal (Registry.mk [] ⟨0, 0, 0⟩) "a1" "coder" ["python"] 1)
        "a1" "coder" ["python"] 2).agents.length
        = (registerLocal (Registry.mk [] ⟨0, 0, 0⟩) "a1" "coder" ["python"] 1).agents.length ∧
    (∃ a ∈ (registerLocal (registerLocal (Registry.mk [] ⟨0, 0, 0⟩)
        "a1" "coder" ["python"] 1) "a1" "coder" ["python"] 2).agents,
      a.id = "a1" ∧ a.status = "idle" ∧ a.last_heartbeat = 2) ∧
    (registerLocal (registerLocal (Registry.mk [] ⟨0, 0, 0⟩) "a1" "coder" ["python"] 1)
        "a1" "coder" ["python"] 2).metadata.total_spawned
        = (registerLocal (Registry.mk [] ⟨0, 0, 0⟩)
            "a1" "coder" ["python"] 1).metadata.total_spawned ∧
    (countAgentL (Registry.mk [] ⟨0, 0, 0⟩).agents "a1" = 0 →
      (registerLocal (Registry.mk [] ⟨0, 0, 0⟩) "a1" "coder" ["python"] 1).agents.length
        = (Registry.mk [] (⟨0, 0, 0⟩ : RegistryMeta)).agents.length + 1 ∧
      (registerLocal (Registry.mk [] ⟨0, 0, 0⟩)
          "a1" "coder" ["python"] 1).metadata.total_spawned
        = (Registry.mk [] (⟨0, 0, 0⟩ : RegistryMeta)).metadata.total_spawned + 1) ∧
    (countAgentL (Registry.mk [] ⟨0, 0, 0⟩).agents "a1" = 1 →
      (registerLocal (Registry.mk [] ⟨0, 0, 0⟩) "a1" "coder" ["python"] 1).agents.length
        = (Registry.mk [] (⟨0, 0, 0⟩ : RegistryMeta)).agents.length ∧
      (registerLocal (Registry.mk [] ⟨0, 0, 0⟩)
          "a1" "coder" ["python"] 1).metadata.total_spawned
        = (Registry.mk [] (⟨0, 0, 0⟩ : RegistryMeta)).metadata.total_spawned)) :=
  ⟨by decide, register_idempotent (Registry.mk [] ⟨0, 0, 0⟩)
    "a1" "coder" ["python"] 1 2 (by decide)⟩

/-! ### C9: execute-failure leaves the shared documents alone -/

theorem claimStep_success_mem {q : Queue} {tid agent : String} {now : Nat}
    (h : (claimStep q tid agent now).2 = true) :
    ∃ t ∈ (claimStep q tid agent now).1.in_progress,
      t.id = tid ∧ t.claimed_by = some agent ∧ t.claimed_at = some now := by
  cases hE : extractFirst tid
      (fun t => { t with claimed_by := some agent, claimed_at := some now })
      q.pending with
  | none => simp [claimStep, hE] at h
  | some p =>
    obtain ⟨-, -, t0, -, hid, hct⟩ := extractFirst_eq_some _ _ hE
    refine ⟨p.2, by simp [claimStep, hE], ?_, ?_, ?_⟩ <;> simp [hct, hid]

theorem updateAgentStatus_mem (aid stat : String) (tid : Option String) (now : Nat)
    (l : List AgentRecord) (h : l.any (fun a => a.id = aid) = true) :
    ∃ a ∈ updateAgentStatus aid stat tid now l,
      a.id = aid ∧ a.status = stat ∧ a.current_task_id = tid := by
  induction l with
  | nil => simp at h
  | cons a as ih =>
    by_cases ha : a.id = aid
    · refine ⟨{ a with status := stat, current_task_id := tid, last_heartbeat := now },
        ?_, ha, rfl, rfl⟩
      simp [updateAgentStatus, ha]
    · have h2 : as.any (fun a => a.id = aid) = true := by
        simp only [List.any_cons, Bool.or_eq_true, decide_eq_true_eq] at h
        rcases h with h | h
        · exact absurd h ha
        · simpa using h
      obtain ⟨b, hb, hrest⟩ := ih h2
      exact ⟨b, by simp [updateAgentStatus, ha, hb], hrest⟩

/-- C9: when the worker claims a task and `execute_task` fails, the loop
resets only the local `status` to idle: the queue stays exactly as the
claim left it (the task still in `in_progress`, `claimed_by` still this
agent — neither `release` nor `complete` runs), the registry stays exactly
as the claim left it (`status` still `active`, `current_task_id` not
cleared), and even the local `current_task_id` keeps pointing at the
task. -/
theorem execute_failure_frame (w : WorkerLocal) (q : Queue) (reg : Registry)
    (task : Task) (now : Nat)
    (hidle : w.status = "idle")
    (hfind : findClaimableTask q w.capabilities = some task)
    (hclaim : (claimStep q task.id w.agent_id now).2 = true)
    (hreg : reg.agents.any (fun a => a.id = w.agent_id) = true) :
    workerIteration w q reg false now
      = ({ w with current_task_id := some task.id, status := "idle" },
         (claimStep q task.id w.agent_id now).1,
         updateRegistryStatus reg w.agent_id "active" (some task.id) now) ∧
    (∃ t ∈ (claimStep q task.id w.agent_id now).1.in_progress,
      t.id = task.id ∧ t.claimed_by = some w.agent_id ∧ t.claimed_at = some now) ∧
    (∃ a ∈ (updateRegistryStatus reg w.agent_id "active" (some task.id) now).agents,
      a.id = w.agent_id ∧ a.status = "active" ∧ a.current_task_id = some task.id) := by
  refine ⟨?_, claimStep_success_mem hclaim,
    updateAgentStatus_mem w.agent_id "active" (some task.id) now reg.agents hreg⟩
  simp [workerIteration, hidle, hfind, hclaim]

/-- The concrete worker, queue and registry used to witness C9. -/
def exC9Task : Task :=
  { id := "T", title := "t", priority := 5, estimated_complexity := "low",
    dependencies := [], required_capabilities := [], claimed_by := none,
    claimed_at := none, completed_by := none, completed_at := none }

/-- One-task queue for the C9 witness. -/
def exC9Queue : Queue := Queue.mk [exC9Task] [] [] [] ⟨0, 1, 0⟩

/-- One-record registry for the C9 witness. -/
def exC9Registry : Registry :=
  Registry.mk
    [{ id := "a1", kind := "coder", status := "idle", current_task_id := none,
       branch := none, started_at := 0, last_heartbeat := 0, capabilities := [],
       container_id := none }] ⟨1, 1, 0⟩

/-- Idle worker for the C9 witness. -/
def exC9Worker : WorkerLocal := WorkerLocal.mk "a1" [] "idle" none

/-- Witness for C9: a concrete idle worker, one-task queue and one-record
registry, with the execution outcome forced to failure. -/
theorem execute_failure_frame_witness :
    (exC9Worker.status = "idle" ∧
     findClaimableTask exC9Queue exC9Worker.capabilities = some exC9Task ∧
     (claimStep exC9Queue exC9Task.id exC9Worker.agent_id 6).2 = true ∧
     exC9Registry.agents.any (fun a => a.id = exC9Worker.agent_id) = true) ∧
    (workerIteration exC9Worker exC9Queue exC9Registry false 6
      = ({ exC9Worker with current_task_id := some exC9Task.id, status := "idle" },
         (claimStep exC9Queue exC9Task.id exC9Worker.agent_id 6).1,
         updateRegistryStatus exC9Registry exC9Worker.agent_id "active"
           (some exC9Task.id) 6) ∧
     (∃ t ∈ (claimStep exC9Queue exC9Task.id exC9Worker.agent_id 6).1.in_progress,
        t.id = exC9Task.id ∧ t.claimed_by = some exC9Worker.agent_id ∧
        t.claimed_at = some 6) ∧
     (∃ a ∈ (updateRegistryStatus exC9Registry exC9Worker.agent_id "active"
          (some exC9Task.id) 6).agents,
        a.id = exC9Worker.agent_id ∧ a.status = "active" ∧
        a.current_task_id = some exC9Task.id)) :=
  ⟨⟨rfl, by decide, by decide, by decide⟩,
   execute_failure_frame exC9Worker exC9Queue exC9Registry exC9Task 6
     rfl (by decide) (by decide) (by decide)⟩

/-! ### C7: the priority scheduler -/

/-- Spec §8's worked example, task T1: priority 5, medium complexity, no
other pending task depends on it. -/
def exT1 : Task :=
  { id := "T1", title := "", priority := 5, estimated_complexity := "medium",
    dependencies := [], required_capabilities := [], claimed_by := none,
    claimed_at := none, completed_by := none, completed_at := none }

/-- Spec §8's worked example, task T2: priority 5, low complexity, two
pending tasks depend on it. -/
def exT2 : Task :=
  { id := "T2", title := "", priority := 5, estimated_complexity := "low",
    dependencies := [], required_capabilities := [], claimed_by := none,
    claimed_at := none, completed_by := none, completed_at := none }

/-- A downstream task depending on T2, giving T2 its blocking count. -/
def exT3 : Task :=
  { id := "T3", title := "", priority := 0, estimated_complexity := "high",
    dependencies := ["T2"], required_capabilities := [], claimed_by := none,
    claimed_at := none, completed_by := none, completed_at := none }

/-- A second downstream task depending on T2. -/
def exT4 : Task :=
  { id := "T4", title := "", priority := 0, estimated_complexity := "high",
    dependencies := ["T2"], required_capabilities := [], claimed_by := none,
    claimed_at := none, completed_by := none, completed_at := none }

/-- The queue realising the worked example: T2 is blocked on by T3 and T4
(blocking count 2), T1 by nobody. -/
def exQ7 : Queue := Queue.mk [exT1, exT2, exT3, exT4] [] [] [] ⟨0, 4, 0⟩

/-- A task listing its own id among its dependencies: the source's
`calculate_priority` counts it in its own blocking count, the spec's
"other pending tasks" formula does not. -/
def cxA : Task :=
  { id := "A", title := "", priority := 5, estimated_complexity := "low",
    dependencies := ["A"], required_capabilities := [], claimed_by := none,
    claimed_at := none, completed_by := none, completed_at := none }

/-- A plain competitor task for the C7 counterexample. -/
def cxB : Task :=
  { id := "B", title := "", priority := 6, estimated_complexity := "low",
    dependencies := [], required_capabilities := [], claimed_by := none,
    claimed_at := none, completed_by := none, completed_at := none }

/-- The queue on which the source's scoring and the spec's "other tasks"
scoring order `pending` differently. -/
def cxQ7 : Queue := Queue.mk [cxA, cxB] [] [] [] ⟨0, 2, 0⟩

/-- Counterexample to C7 as stated: for the self-dependent task A the
source computes score 5 + 1*2 - 1 = 6 (it counts A among the tasks listing
A's id), while the claim's "count of other pending tasks" formula gives
5 + 0*2 - 1 = 4; consequently the source orders `pending` as [A, B] while
the claimed scoring would order it [B, A]. -/
theorem prioritize_other_count_counterexample :
    calculatePriority cxQ7 cxA = 6 ∧ specCalculatePriority cxQ7 cxA = 4 ∧
    calculatePriority cxQ7 cxB = 5 ∧ specCalculatePriority cxQ7 cxB = 5 ∧
    (prioritizeTasks cxQ7 9).pending.map Task.id = ["A", "B"] ∧
    (specPrioritizeTasks cxQ7 9).pending.map Task.id = ["B", "A"] ∧
    (["A", "B"] : List String) ≠ ["B", "A"] := by
  refine ⟨?_, ?_, ?_, ?_, by decide, by decide, by decide⟩
  · rw [calculatePriority_eq_half, show calculatePriorityH cxQ7 cxA = 12 from by decide]
    norm_num
  · rw [specCalculatePriority_eq_half,
      show specCalculatePriorityH cxQ7 cxA = 8 from by decide]
    norm_num
  · rw [calculatePriority_eq_half, show calculatePriorityH cxQ7 cxB = 10 from by decide]
    norm_num
  · rw [specCalculatePriority_eq_half,
      show specCalculatePriorityH cxQ7 cxB = 10 from by decide]
    norm_num

/-- C7 amended: `prioritize_tasks` re-sorts `pending` stably in descending
order of `priority + blockingCount*2.0 - complexityWeight`, where
`blockingCount` counts **all** pending tasks listing the task's id in
their dependencies (the task itself included if self-referencing, which is
where the claim's "other pending tasks" wording fails); the sort is a
stable permutation (scores are scratch state, tasks are persisted
unchanged), the other buckets and counters are untouched, and the worked
example scores 3.5 / 8.0 yield the pending order [T2, T1, ...]. -/
theorem prioritize_amended :
    (∀ (q : Queue) (now : Nat),
      ((prioritizeTasks q now).pending).Perm q.pending ∧
      List.Sorted (scoreGE q) (prioritizeTasks q now).pending ∧
      (∀ a b : Task, scoreGE q a b → [a, b].Sublist q.pending →
        [a, b].Sublist (prioritizeTasks q now).pending) ∧
      (prioritizeTasks q now).in_progress = q.in_progress ∧
      (prioritizeTasks q now).completed = q.completed ∧
      (prioritizeTasks q now).blocked = q.blocked ∧
      (prioritizeTasks q now).metadata.total_tasks_completed
        = q.metadata.total_tasks_completed) ∧
    calculatePriority exQ7 exT1 = 7 / 2 ∧
    calculatePriority exQ7 exT2 = 8 ∧
    (prioritizeTasks exQ7 9).pending.map Task.id = ["T2", "T1", "T3", "T4"] := by
  refine ⟨?_, ?_, ?_, ?_⟩
  case refine_2 =>
    rw [calculatePriority_eq_half, show calculatePriorityH exQ7 exT1 = 7 from by decide]
    norm_num
  case refine_3 =>
    rw [calculatePriority_eq_half, show calculatePriorityH exQ7 exT2 = 16 from by decide]
    norm_num
  case refine_4 => decide
  intro q now
  by_cases hp : q.pending.isEmpty
  · have hnil : q.pending = [] := List.isEmpty_iff.mp hp
    have he : prioritizeTasks q now = q := by simp [prioritizeTasks, hp]
    rw [he]
    exact ⟨List.Perm.refl _, by rw [hnil]; exact List.sorted_nil,
      fun a b _ hs => hs, rfl, rfl, rfl, rfl⟩
  · have he : prioritizeTasks q now
        = { q with
            pending := q.pending.insertionSort (scoreGE q)
            metadata := { q.metadata with last_updated := now } } := by
      simp [prioritizeTasks, hp]
    rw [he]
    haveI : IsTotal Task (scoreGE q) :=
      ⟨fun a b => le_total (calculatePriority q b) (calculatePriority q a)⟩
    haveI : IsTrans Task (scoreGE q) :=
      ⟨fun _ _ _ hab hbc => le_trans hbc hab⟩
    exact ⟨List.perm_insertionSort _ _, List.sorted_insertionSort _ _,
      fun a b hab hsub => List.pair_sublist_insertionSort hab hsub,
      rfl, rfl, rfl, rfl⟩

/-- Witness for C7: the tied tasks T3 and T4 (both score -2) keep their
relative order through the stable re-sort of the worked-example queue. -/
theorem prioritize_amended_witness :
    scoreGE exQ7 exT3 exT4 ∧ [exT3, exT4].Sublist exQ7.pending ∧
    [exT3, exT4].Sublist (prioritizeTasks exQ7 9).pending :=
  ⟨(scoreGE_iff exQ7 exT3 exT4).mpr (by decide),
   ((List.Sublist.refl [exT3, exT4]).cons exT2).cons exT1,
   (prioritize_amended.1 exQ7 9).2.2.1 exT3 exT4
     ((scoreGE_iff exQ7 exT3 exT4).mpr (by decide))
     (((List.Sublist.refl [exT3, exT4]).cons exT2).cons exT1)⟩

/-! ### C4: the publish/retry loop -/

theorem applyWrite_version_le {α : Type} (st : Store α) (o : Option (α → α)) :
    st.version ≤ (applyWrite st o).version := by
  cases o <;> simp [applyWrite]

theorem pushAttempts_conflict {α : Type} (base : Nat) (v : α) :
    ∀ (fuel : Nat) (st : Store α) (writes : List (Option (α → α))) (i : Nat),
      base < st.version →
      pushAttempts base v st writes i fuel
        = (false, applyWrites st (writes.take fuel),
           (List.range' i fuel).map (2 ^ ·)) := by
  intro fuel
  induction fuel with
  | zero =>
    intro st writes i h
    simp [pushAttempts, applyWrites]
  | succ n ih =>
    intro st writes i h
    have h1 : base < (applyWrite st writes.headI).version :=
      lt_of_lt_of_le h (applyWrite_version_le st writes.headI)
    have hne : ¬((applyWrite st writes.headI).version = base) := by omega
    cases writes with
    | nil =>
      simp only [pushAttempts, List.headI, applyWrite, List.drop_nil] at hne ⊢
      rw [if_neg hne, ih st [] (i + 1) (by simpa [applyWrite] using h1)]
      simp [applyWrites, List.range'_succ]
    | cons w ws =>
      simp only [pushAttempts, List.headI, List.drop_succ_cons, List.drop_zero] at hne ⊢
      rw [if_neg hne, ih (applyWrite st w) ws (i + 1) (by simpa using h1)]
      simp [applyWrites, List.range'_succ]

/-- Counterexample to C4 as stated: with one interfering write landing
between the initial fetch and the first push, the source's loop (which
re-pushes the same locally mutated value without re-fetching) fails all
three attempts and reports failure, while the claimed re-fetch-and-reapply
cycle succeeds on its second attempt; the store ends without the mutation
under the source's loop. -/
theorem publish_no_refetch_counterexample :
    (codePublish (Store.mk 0 10) (fun n => n + 1)
      [some (fun n => n + 100), none, none] 3).1 = false ∧
    (codePublish (Store.mk 0 10) (fun n => n + 1)
      [some (fun n => n + 100), none, none] 3).2.1.value = 110 ∧
    (codePublish (Store.mk 0 10) (fun n => n + 1)
      [some (fun n => n + 100), none, none] 3).2.2 = [1, 2, 4] ∧
    (specPublish (Store.mk 0 10) (fun n => n + 1)
      [some (fun n => n + 100), none, none] 0 3).1 = true ∧
    (specPublish (Store.mk 0 10) (fun n => n + 1)
      [some (fun n => n + 100), none, none] 0 3).2.1.value = 111 ∧
    (specPublish (Store.mk 0 10) (fun n => n + 1)
      [some (fun n => n + 100), none, none] 0 3).2.2 = [1] ∧
    false ≠ true :=
  ⟨rfl, rfl, rfl, rfl, rfl, rfl, by decide⟩

/-- C4 amended: in `register` and `claim_task` the retry loop re-attempts
only the publish of the value mutated once at the start — it never
re-fetches nor re-applies the mutation.  With no conflict the first push
lands the mutation; after a conflicting write the loop performs its full
budget of attempts (default 3), sleeping `2^attempt` after each failed
one, then returns failure with the store holding only the interfering
writes and none of this operation's mutation. -/
theorem publish_retries_push_only {α : Type} (st : Store α) (f : α → α) (maxR : Nat) :
    (codePublish st f [] (maxR + 1)
      = (true, { version := st.version + 1, value := f st.value }, [])) ∧
    (∀ ws, codePublish st f (none :: ws) (maxR + 1)
      = (true, { version := st.version + 1, value := f st.value }, [])) ∧
    (∀ (g : α → α) (ws : List (Option (α → α))),
      codePublish st f (some g :: ws) (maxR + 1)
        = (false, applyWrites st ((some g :: ws).take (maxR + 1)),
           (List.range (maxR + 1)).map (2 ^ ·))) := by
  refine ⟨?_, ?_, ?_⟩
  · simp [codePublish, pushAttempts, List.headI, applyWrite]
  · intro ws
    simp [codePublish, pushAttempts, List.headI, applyWrite]
  · intro g ws
    have h1 : st.version < (applyWrite st (some g)).version := by
      simp [applyWrite]
    have hne : ¬((applyWrite st (some g)).version = st.version) := by omega
    simp only [codePublish, pushAttempts, List.headI, List.drop_succ_cons,
      List.drop_zero, Nat.zero_add]
    rw [if_neg hne, pushAttempts_conflict st.version (f st.value) maxR
      (applyWrite st (some g)) ws 1 h1]
    simp [applyWrites, List.range_eq_range', List.range'_succ]

end SaltBitter
